import Mathlib

/-!
Verification of the YummyVerse hardware coordinator (get_all.py and its
variants get_play.py, sound.py, serial_audio_player.py).

The Python sources are shallowly embedded: pure fragments become Lean
functions, the stateful loop bodies become explicit state-transition
functions, Python exceptions become Option results, and Python floats are
modelled by rationals.
-/

/-! ## Parameter mapping (get_all.py lines 71-91) -/

/-- Embedding of Python values as they reach clamp10 (the `Any` argument). -/
inductive PyVal where
  | int (n : Int)
  | float (q : ℚ)
  | str (s : String)
  | pynone
  | other
deriving DecidableEq

/-- Fold a digit list into a natural number, as positional decimal. -/
def digitsToNat (l : List Char) : Nat :=
  l.foldl (fun acc c => acc * 10 + (c.toNat - 48)) 0

/-- Strip leading and trailing whitespace from a character list, as
Python int() does before parsing a string. -/
def stripWs (l : List Char) : List Char :=
  ((l.dropWhile Char.isWhitespace).reverse.dropWhile Char.isWhitespace).reverse

/-- Python int(s) on a string: optional whitespace, an optional sign, then
at least one decimal digit; anything else (e.g. a fractional literal
"7.5") raises ValueError, modelled as none. -/
def pyIntOfString (s : String) : Option Int :=
  match stripWs s.toList with
  | [] => none
  | c :: rest =>
    if c = '-' then
      if rest ≠ [] ∧ rest.all Char.isDigit then some (-(digitsToNat rest : Int)) else none
    else if c = '+' then
      if rest ≠ [] ∧ rest.all Char.isDigit then some (digitsToNat rest : Int) else none
    else
      if (c :: rest).all Char.isDigit then some (digitsToNat (c :: rest) : Int) else none

/-- Truncation of a rational toward zero, matching Python int(float). -/
def truncQ (q : ℚ) : Int :=
  if q < 0 then -⌊-q⌋ else ⌊q⌋

/-- Python int(x) for the value kinds that can reach clamp10: ints pass
through, floats truncate toward zero, strings parse as integers, and
None or any other object raises (none). -/
def pyToInt : PyVal → Option Int
  | .int n => some n
  | .float q => some (truncQ q)
  | .str s => pyIntOfString s
  | .pynone => none
  | .other => none

/-- get_all.py clamp10: try int(x) (default 5 on failure), then clamp the
result into [1, 10]. -/
def clamp10 (x : PyVal) : Int :=
  match pyToInt x with
  | none => 5
  | some xi => if xi < 1 then 1 else if xi > 10 then 10 else xi

/-- get_all.py FIRMNESS_TO_DUTY dict: firmness 1..10 to the (d5, d6) duty
pair; lookup of a missing key raises KeyError, modelled as none. -/
def FIRMNESS_TO_DUTY (f : Int) : Option (Int × Int) :=
  if f = 10 then some (80, 60) else if f = 9 then some (75, 58)
  else if f = 8 then some (70, 56) else if f = 7 then some (65, 54)
  else if f = 6 then some (60, 52) else if f = 5 then some (55, 50)
  else if f = 4 then some (50, 48) else if f = 3 then some (45, 46)
  else if f = 2 then some (40, 44) else if f = 1 then some (40, 42)
  else none

/-- get_all.py CHEWINESS_TO_SEQ dict: chewiness 1..10 to the
(up, hold, down) timing triple. -/
def CHEWINESS_TO_SEQ (c : Int) : Option (Int × Int × Int) :=
  if c = 10 then some (150, 300, 100) else if c = 9 then some (136, 273, 91)
  else if c = 8 then some (120, 240, 80) else if c = 7 then some (107, 214, 71)
  else if c = 6 then some (88, 176, 59) else if c = 5 then some (75, 150, 50)
  else if c = 4 then some (60, 120, 40) else if c = 3 then some (50, 100, 33)
  else if c = 2 then some (30, 60, 20) else if c = 1 then some (15, 30, 10)
  else none

/-- The f-string of compose_ctrl_line: "up,hold,down,d5,d6". -/
def ctrl_string (up hold down d5 d6 : Int) : String :=
  toString up ++ "," ++ toString hold ++ "," ++ toString down ++ ","
    ++ toString d5 ++ "," ++ toString d6

/-- get_all.py compose_ctrl_line: look up both tables and join the five
fields with commas; a missing key propagates as none. -/
def compose_ctrl_line (chewiness firmness : Int) : Option String := do
  let (up, hold, down) ← CHEWINESS_TO_SEQ chewiness
  let (d5, d6) ← FIRMNESS_TO_DUTY firmness
  pure (ctrl_string up hold down d5 d6)

/-- CHEWINESS_TO_SEQ entry with the KeyError case defaulted, for stating
componentwise monotonicity. -/
def chew_seq (c : Int) : Int × Int × Int := (CHEWINESS_TO_SEQ c).getD (0, 0, 0)

/-- FIRMNESS_TO_DUTY entry with the KeyError case defaulted. -/
def firm_duty (f : Int) : Int × Int := (FIRMNESS_TO_DUTY f).getD (0, 0)

/-! ## Playback-duration derivation (get_all.py lines 394-443) -/

/-- DEFAULT_FALLBACK_SEC of continuously_read_from_arduino: 0.5 s. -/
def DEFAULT_FALLBACK_SEC : ℚ := 1/2

/-- MIN_SEC of continuously_read_from_arduino: 0.05 s. -/
def MIN_SEC : ℚ := 1/20

/-- MAX_SEC of continuously_read_from_arduino: 5.0 s. -/
def MAX_SEC : ℚ := 5

/-- The duration computation on a "close" event (get_all.py lines 437-443):
the mean of recent_intervals when non-empty, else the fallback, then
avg_sec = max(MIN_SEC, min(MAX_SEC, avg_sec)). -/
def derive_avg_sec (recent_intervals : List ℚ) : ℚ :=
  let avg_sec :=
    if recent_intervals.length > 0 then
      recent_intervals.sum / (recent_intervals.length : ℚ)
    else DEFAULT_FALLBACK_SEC
  max MIN_SEC (min MAX_SEC avg_sec)

/-- deque(maxlen=n).append: append on the right, evicting from the left
whatever exceeds the capacity (get_all.py line 396 with maxlen=3,
append at line 432). -/
def deque_append (maxlen : Nat) (xs : List ℚ) (x : ℚ) : List ℚ :=
  let ys := xs ++ [x]
  if ys.length ≤ maxlen then ys else ys.drop (ys.length - maxlen)

/-! ## Pending control line (get_all.py lines 238-246 and 503-513) -/

/-- SharedAudioState.set_ctrl_line: unconditionally overwrite
pending_ctrl_line (under the lock). The state is the pending_ctrl_line
field. -/
def set_ctrl_line (pending_ctrl_line : Option String) (line : String) : Option String :=
  some line

/-- SharedAudioState.pop_ctrl_line: return the pending line and reset the
field to None; result is (returned line, new pending_ctrl_line). -/
def pop_ctrl_line (pending_ctrl_line : Option String) : Option String × Option String :=
  (pending_ctrl_line, none)

/-- An access to the ctrl-line mailbox: a producer set (qr_download_thread
line 350) or a dispatcher pop (main loop line 504). -/
inductive CtrlAct where
  | set (line : String)
  | pop
deriving DecidableEq

/-- One mailbox access: new pending field paired with the line delivered to
the serial port, if any (main writes the popped line when present). -/
def ctrl_step (pending : Option String) : CtrlAct → Option String × Option String
  | .set l => (set_ctrl_line pending l, none)
  | .pop => ((pop_ctrl_line pending).2, (pop_ctrl_line pending).1)

/-- Run a sequence of mailbox accesses, collecting every line delivered to
the serial transport. -/
def ctrl_run (pending : Option String) : List CtrlAct → Option String × List String
  | [] => (pending, [])
  | a :: rest =>
    let s := ctrl_step pending a
    let r := ctrl_run s.1 rest
    (r.1, s.2.toList ++ r.2)

/-- Number of pending lines held in the mailbox (0 or 1 by construction). -/
def pendingCount : Option String → Nat
  | none => 0
  | some _ => 1

/-- Number of set accesses in a trace. -/
def setCount : List CtrlAct → Nat
  | [] => 0
  | .set _ :: rest => setCount rest + 1
  | .pop :: rest => setCount rest

/-! ## QR detection / fetch step (get_all.py lines 295-354, get_play.py
lines 131-164) -/

/-- Outcome of the fallible stages of one get_all.py fetch cycle: audio
download + atomic replace, ffmpeg trim, the fallback raw copy, and the
parameter fetch/compose. -/
structure FetchEnv where
  audio_ok : Bool
  trim_ok : Bool
  copy_ok : Bool
  param_ok : Bool
deriving DecidableEq

/-- Observable result of one body of the get_all.py QR loop. -/
structure QrStepResult where
  last_id : Option String
  reload_signaled : Bool
  ctrl_set : Bool
deriving DecidableEq

/-- Body of get_all.py qr_download_thread for one decoded user_id
(lines 311-354): a repeated id is skipped; otherwise steps 1-2
(download + trim, with raw-copy fallback) and step 3 (param fetch and
ctrl-line compose) are each attempted under their own try, and
last_id = user_id runs unconditionally afterwards. -/
def get_all_qr_step (last_id : Option String) (user_id : String) (env : FetchEnv) :
    QrStepResult :=
  if some user_id = last_id then
    { last_id := last_id, reload_signaled := false, ctrl_set := false }
  else
    { last_id := some user_id
      reload_signaled := env.audio_ok && (env.trim_ok || env.copy_ok)
      ctrl_set := env.param_ok }

/-- Body of get_play.py qr_download_thread for one decoded id
(lines 142-164): a repeated id is skipped; otherwise the download is
attempted and last_id = decodedText runs only inside the try, after
success; result is (new last_id, reload signaled). -/
def get_play_qr_step (last_id : Option String) (decodedText : String) (fetch_ok : Bool) :
    Option String × Bool :=
  if some decodedText = last_id then (last_id, false)
  else if fetch_ok then (some decodedText, true)
  else (last_id, false)

/-! ## Looped PCM extraction (get_all.py lines 144-157, get_play.py
lines 70-83, sound.py lines 25-38, serial_audio_player.py lines 24-42)

A WAV asset is a list of frames; the read cursor is a position into it.
wave.Wave_read.readframes(n) returns at most n frames from the cursor,
rewind() moves the cursor to 0. -/

/-- wave readframes: the next n frames starting at pos (fewer at the end
of the asset, empty exactly at the end). -/
def wav_readframes (asset : List Int) (pos n : Nat) : List Int :=
  (asset.drop pos).take n

/-- The while-loop of read_exact_sec / read_exact_1s: keep reading remain
frames; on an empty read, rewind to 0 and retry; stop when remain
reaches 0. The Python loop has no bound, so the embedding takes fuel and
returns none when the fuel runs out; the termination theorems show the
fuel 2*need+2 always suffices on a non-empty asset, and that no fuel
suffices on an empty one. -/
def read_exact_loop (asset : List Int) : Nat → Nat → Nat → Option (List Int)
  | 0, _, _ => none
  | fuel + 1, remain, pos =>
    if remain = 0 then some []
    else
      let frames := wav_readframes asset pos remain
      if frames.length = 0 then
        read_exact_loop asset fuel remain 0
      else
        (read_exact_loop asset fuel (remain - frames.length) (pos + frames.length)).map
          (fun rest => frames ++ rest)

/-- serial_audio_player.py read_segment_looped: read seg_frames frames
starting at start_frame % nframes_total, concatenating the tail of the
asset with its head when the segment crosses the end; start_frame % 0
raises ZeroDivisionError on an empty asset, modelled as none. -/
def read_segment_looped (asset : List Int) (start_frame seg_frames : Nat) :
    Option (List Int) :=
  let nframes_total := asset.length
  if nframes_total = 0 then none
  else
    let start := start_frame % nframes_total
    if start + seg_frames ≤ nframes_total then
      some ((asset.drop start).take seg_frames)
    else
      some ((asset.drop start).take (nframes_total - start)
        ++ asset.take (start + seg_frames - nframes_total))

/-- The ring-buffer reading the extraction is specified against: the next
n frames of the infinite cyclic repetition of the asset, starting at pos.
For n and pos at most the asset length one copy appended suffices. -/
def ring_take (asset : List Int) (pos n : Nat) : List Int :=
  List.take n (asset.drop pos ++ asset)

/-! ## Helper lemmas on ring extraction -/

/-- Extracting zero frames from the ring yields nothing. -/
theorem ring_take_zero (asset : List Int) (pos : Nat) : ring_take asset pos 0 = [] := by
  simp [ring_take]

/-- One productive readframes call followed by the rest of the ring read
reassembles the whole ring read. -/
theorem ring_take_step (asset : List Int) (pos remain : Nat)
    (hpos : pos < asset.length) :
    (asset.drop pos).take remain
      ++ ring_take asset (pos + min remain (asset.length - pos))
          (remain - min remain (asset.length - pos))
      = ring_take asset pos remain := by
  rcases le_or_lt remain (asset.length - pos) with h | h
  · have hmin : min remain (asset.length - pos) = remain := min_eq_left h
    rw [hmin, Nat.sub_self, ring_take_zero, List.append_nil, ring_take,
      List.take_append_of_le_length (by rw [List.length_drop]; exact h)]
  · have hmin : min remain (asset.length - pos) = asset.length - pos :=
      min_eq_right (le_of_lt h)
    rw [hmin]
    have hdl : (asset.drop pos).length = asset.length - pos := List.length_drop _ _
    have htake : (asset.drop pos).take remain = asset.drop pos :=
      List.take_of_length_le (by omega)
    rw [htake]
    have hpl : pos + (asset.length - pos) = asset.length := by omega
    rw [hpl]
    simp only [ring_take, List.drop_length, List.nil_append]
    rw [List.take_append_eq_append_take, htake]
    congr 1
    rw [hdl]

/-- The read loop with fuel at least 2*remain+2 (or 2*remain+1 when the
cursor is strictly inside the asset) returns exactly the ring read of
remain frames, for remain up to the asset length. -/
theorem read_exact_loop_spec (asset : List Int) :
    ∀ fuel remain pos, asset ≠ [] → pos ≤ asset.length → remain ≤ asset.length →
      ((2 * remain + 1 ≤ fuel ∧ pos < asset.length) ∨ 2 * remain + 2 ≤ fuel) →
      read_exact_loop asset fuel remain pos = some (ring_take asset pos remain) := by
  intro fuel
  induction fuel with
  | zero => intro remain pos _ _ _ hf; exfalso; omega
  | succ fuel ih =>
    intro remain pos hne hpos hrem hf
    have hlen0 : 0 < asset.length := List.length_pos.mpr hne
    by_cases h0 : remain = 0
    · subst h0; simp [read_exact_loop, ring_take]
    · by_cases hpe : pos = asset.length
      · -- empty read at the end of the asset: rewind and retry
        subst hpe
        have hframes : wav_readframes asset asset.length remain = [] := by
          simp [wav_readframes]
        rw [read_exact_loop, if_neg h0]
        simp only [hframes, List.length_nil, if_pos rfl]
        have hstep := ih remain 0 hne (Nat.zero_le _) hrem (Or.inl ⟨by omega, hlen0⟩)
        rw [hstep]
        simp only [ring_take, List.drop_length, List.nil_append, List.drop_zero]
        rw [List.take_append_of_le_length hrem]
        simp
      · -- productive read
        have hplt : pos < asset.length := lt_of_le_of_ne hpos hpe
        have hflen : (wav_readframes asset pos remain).length
            = min remain (asset.length - pos) := by
          simp [wav_readframes]
        have hc1 : 1 ≤ min remain (asset.length - pos) := by omega
        rw [read_exact_loop, if_neg h0]
        rw [if_neg (by omega : ¬ (wav_readframes asset pos remain).length = 0)]
        rw [hflen]
        have hstep := ih (remain - min remain (asset.length - pos))
          (pos + min remain (asset.length - pos)) hne (by omega) (by omega)
          (Or.inr (by omega))
        rw [hstep]
        simp only [Option.map_some']
        rw [wav_readframes, ring_take_step asset pos remain hplt]

/-- On a non-empty asset the read loop succeeds for any requested frame
count, with fuel 2*remain+2. -/
theorem read_exact_loop_total (asset : List Int) :
    ∀ fuel remain pos, asset ≠ [] → pos ≤ asset.length →
      ((2 * remain + 1 ≤ fuel ∧ pos < asset.length) ∨ 2 * remain + 2 ≤ fuel) →
      ∃ out, read_exact_loop asset fuel remain pos = some out := by
  intro fuel
  induction fuel with
  | zero => intro remain pos _ _ hf; exfalso; omega
  | succ fuel ih =>
    intro remain pos hne hpos hf
    have hlen0 : 0 < asset.length := List.length_pos.mpr hne
    by_cases h0 : remain = 0
    · subst h0; exact ⟨[], by simp [read_exact_loop]⟩
    · by_cases hpe : pos = asset.length
      · subst hpe
        have hframes : wav_readframes asset asset.length remain = [] := by
          simp [wav_readframes]
        rw [read_exact_loop, if_neg h0]
        simp only [hframes, List.length_nil, if_pos rfl]
        exact ih remain 0 hne (Nat.zero_le _) (Or.inl ⟨by omega, hlen0⟩)
      · have hplt : pos < asset.length := lt_of_le_of_ne hpos hpe
        have hflen : (wav_readframes asset pos remain).length
            = min remain (asset.length - pos) := by
          simp [wav_readframes]
        have hc1 : 1 ≤ min remain (asset.length - pos) := by omega
        rw [read_exact_loop, if_neg h0]
        rw [if_neg (by omega : ¬ (wav_readframes asset pos remain).length = 0)]
        obtain ⟨out, hout⟩ := ih (remain - (wav_readframes asset pos remain).length)
          (pos + (wav_readframes asset pos remain).length) hne (by omega)
          (Or.inr (by omega))
        exact ⟨wav_readframes asset pos remain ++ out, by rw [hout]; rfl⟩

/-- On an empty asset the rewind-and-retry loop makes no progress: it
exhausts any fuel, i.e. the Python loop never terminates. -/
theorem read_exact_loop_empty (remain pos : Nat) (h0 : 0 < remain) :
    ∀ fuel, read_exact_loop [] fuel remain pos = none := by
  intro fuel
  induction fuel generalizing pos with
  | zero => rfl
  | succ fuel ih =>
    rw [read_exact_loop, if_neg (by omega : ¬ remain = 0)]
    simp only [wav_readframes, List.drop_nil, List.take_nil, List.length_nil, if_pos rfl]
    exact ih 0

/-- A ring read that stays inside the asset is a plain segment read. -/
theorem ring_take_within (asset : List Int) (start seg : Nat)
    (h : seg ≤ asset.length - start) :
    ring_take asset start seg = (asset.drop start).take seg := by
  rw [ring_take, List.take_append_of_le_length (by rw [List.length_drop]; exact h)]

/-- A ring read that crosses the end of the asset is the tail of the asset
followed by the missing amount from its head. -/
theorem ring_take_wrap (asset : List Int) (start seg : Nat)
    (hstart : start < asset.length) (h : asset.length - start ≤ seg) :
    ring_take asset start seg
      = asset.drop start ++ asset.take (start + seg - asset.length) := by
  have hdl : (asset.drop start).length = asset.length - start := List.length_drop _ _
  have h2 : List.take seg (asset.drop start) = asset.drop start :=
    List.take_of_length_le (by omega)
  have h3 : seg - (asset.drop start).length = start + seg - asset.length := by
    rw [hdl]; omega
  rw [ring_take, List.take_append_eq_append_take, h2, h3]

/-- read_segment_looped computes exactly the ring read starting at the
cursor reduced modulo the asset length. -/
theorem read_segment_looped_spec (asset : List Int) (start_frame seg_frames : Nat)
    (hne : asset ≠ []) :
    read_segment_looped asset start_frame seg_frames
      = some (ring_take asset (start_frame % asset.length) seg_frames) := by
  have hlen0 : 0 < asset.length := List.length_pos.mpr hne
  have hstart : start_frame % asset.length < asset.length := Nat.mod_lt _ hlen0
  rw [read_segment_looped]
  simp only [if_neg (by omega : ¬ asset.length = 0)]
  by_cases hbr : start_frame % asset.length + seg_frames ≤ asset.length
  · rw [if_pos hbr, ring_take_within asset _ _ (by omega)]
  · rw [if_neg hbr, ring_take_wrap asset _ _ hstart (by omega)]
    rw [List.take_of_length_le (le_of_eq (List.length_drop _ _))]

/-! ## Claim theorems -/

/-- Claim C1, counterexample: in get_all.py the claim fails. With a fresh
identification "alice" whose asset download fails (audio_ok = false, no
trim, no fallback copy, no param), the loop body still sets
last_id = "alice" (line 354 runs unconditionally), so the claimed
"last_id is not updated on fetch/trim failure" is false there. -/
theorem get_all_updates_last_id_on_fetch_failure :
    (get_all_qr_step none "alice" ⟨false, false, false, false⟩).last_id = some "alice" ∧
    (get_all_qr_step none "alice" ⟨false, false, false, false⟩).reload_signaled = false := by
  exact ⟨rfl, rfl⟩

/-- Claim C1, amended: in get_all.py, last_id is updated after steps 1-3
are attempted regardless of whether any of them succeeded (so neither an
asset-fetch nor a parameter-fetch failure causes a retry of the same
identification); only in get_play.py does a fetch failure leave last_id
unchanged, allowing an immediate retry on the next detection; in both, a
repeated identification is a no-op. -/
theorem last_id_update_semantics (last_id : Option String) (uid : String)
    (env : FetchEnv) (ok : Bool) :
    (some uid ≠ last_id → (get_all_qr_step last_id uid env).last_id = some uid) ∧
    (some uid = last_id → get_all_qr_step last_id uid env =
      { last_id := last_id, reload_signaled := false, ctrl_set := false }) ∧
    (some uid ≠ last_id → ok = false → (get_play_qr_step last_id uid ok).1 = last_id) ∧
    (some uid ≠ last_id → ok = true → (get_play_qr_step last_id uid ok).1 = some uid) := by
  refine ⟨?_, ?_, ?_, ?_⟩
  · intro h; simp [get_all_qr_step, h]
  · intro h; simp [get_all_qr_step, h]
  · intro h hok; simp [get_play_qr_step, h, hok]
  · intro h hok; simp [get_play_qr_step, h, hok]

/-- Claim C1 witness: the amended theorem applied to a fresh id "bob". -/
theorem last_id_update_semantics_witness :
    (get_all_qr_step none "bob" ⟨false, false, false, true⟩).last_id = some "bob" ∧
    (get_play_qr_step none "bob" false).1 = none ∧
    (get_play_qr_step none "bob" true).1 = some "bob" := by
  have h := last_id_update_semantics none "bob" ⟨false, false, false, true⟩ false
  have h2 := last_id_update_semantics none "bob" ⟨false, false, false, true⟩ true
  exact ⟨h.1 (Option.some_ne_none _), h.2.2.1 (Option.some_ne_none _) rfl,
    h2.2.2.2 (Option.some_ne_none _) rfl⟩

/-- Claim C2: for every opened asset (non-empty frame list), cursor
position, and requested frame count N up to the asset length, the
read_exact_sec loop (with sufficient fuel standing for its unbounded
while) returns exactly the N-frame ring read from the cursor, whose
length is exactly N; and read_segment_looped returns the same ring read
from its cursor reduced modulo the asset length. -/
theorem extraction_ring_semantics (asset : List Int) (pos N fuel : Nat)
    (hne : asset ≠ []) (hpos : pos ≤ asset.length) (hN : N ≤ asset.length)
    (hfuel : 2 * N + 2 ≤ fuel) :
    read_exact_loop asset fuel N pos = some (ring_take asset pos N) ∧
    (ring_take asset pos N).length = N ∧
    read_segment_looped asset pos N = some (ring_take asset (pos % asset.length) N) ∧
    (ring_take asset (pos % asset.length) N).length = N := by
  have hlen0 : 0 < asset.length := List.length_pos.mpr hne
  have hmod : pos % asset.length < asset.length := Nat.mod_lt _ hlen0
  refine ⟨read_exact_loop_spec asset fuel N pos hne hpos hN (Or.inr hfuel), ?_,
    read_segment_looped_spec asset pos N hne, ?_⟩
  · rw [ring_take, List.length_take, List.length_append, List.length_drop]; omega
  · rw [ring_take, List.length_take, List.length_append, List.length_drop]; omega

/-- Claim C2 witness: a 5-frame asset with the cursor 80% through (frame 4)
and N = 3 wraps: the extracted slice is frame 5 followed by frames 1, 2. -/
theorem extraction_ring_semantics_witness :
    (read_exact_loop [1, 2, 3, 4, 5] 8 3 4 = some (ring_take [1, 2, 3, 4, 5] 4 3) ∧
      (ring_take [1, 2, 3, 4, 5] 4 3).length = 3 ∧
      read_segment_looped [1, 2, 3, 4, 5] 4 3
        = some (ring_take [1, 2, 3, 4, 5] (4 % ([1, 2, 3, 4, 5] : List Int).length) 3) ∧
      (ring_take [1, 2, 3, 4, 5] (4 % ([1, 2, 3, 4, 5] : List Int).length) 3).length = 3) ∧
    ring_take [1, 2, 3, 4, 5] 4 3 = [5, 1, 2] :=
  ⟨extraction_ring_semantics [1, 2, 3, 4, 5] 4 3 8 (by decide) (by decide)
      (by decide) (by decide),
    by decide⟩

/-- Claim C3: on a "close" event, the playback duration is the arithmetic
mean of the interval history when non-empty and the fixed fallback 0.5 s
when empty, and the result is always clamped into [0.05, 5.0]; a mean of
9.0 yields 5.0 and a mean of 0.0 yields 0.05. -/
theorem close_duration_spec (hist : List ℚ) :
    (hist = [] → derive_avg_sec hist = 1/2) ∧
    (hist ≠ [] →
      (MIN_SEC ≤ hist.sum / (hist.length : ℚ) → hist.sum / (hist.length : ℚ) ≤ MAX_SEC →
        derive_avg_sec hist = hist.sum / (hist.length : ℚ)) ∧
      (hist.sum / (hist.length : ℚ) ≤ MIN_SEC → derive_avg_sec hist = MIN_SEC) ∧
      (MAX_SEC ≤ hist.sum / (hist.length : ℚ) → derive_avg_sec hist = MAX_SEC)) ∧
    MIN_SEC ≤ derive_avg_sec hist ∧
    derive_avg_sec hist ≤ MAX_SEC ∧
    derive_avg_sec [9] = 5 ∧
    derive_avg_sec [0] = 1/20 := by
  have hmm : MIN_SEC ≤ MAX_SEC := by norm_num [MIN_SEC, MAX_SEC]
  refine ⟨?_, ?_, le_max_left _ _, max_le hmm (min_le_left _ _), ?_, ?_⟩
  · intro h; subst h
    norm_num [derive_avg_sec, DEFAULT_FALLBACK_SEC, MIN_SEC, MAX_SEC]
  · intro hne
    have hlen : 0 < hist.length := List.length_pos.mpr hne
    refine ⟨?_, ?_, ?_⟩
    · intro h1 h2
      simp only [derive_avg_sec, hlen, if_true]
      rw [min_eq_right h2, max_eq_right h1]
    · intro h1
      simp only [derive_avg_sec, hlen, if_true]
      rw [min_eq_right (le_trans h1 hmm), max_eq_left h1]
    · intro h1
      simp only [derive_avg_sec, hlen, if_true]
      rw [min_eq_left h1, max_eq_right hmm]
  · norm_num [derive_avg_sec, MIN_SEC, MAX_SEC]
  · norm_num [derive_avg_sec, MIN_SEC, MAX_SEC]

/-- Claim C3 witness: the empty history falls back to 0.5 s and a history
with mean 9 clamps to 5. -/
theorem close_duration_spec_witness :
    derive_avg_sec [] = 1/2 ∧ derive_avg_sec [9] = 5 :=
  ⟨(close_duration_spec []).1 rfl, (close_duration_spec [9]).2.2.2.2.1⟩

/-- Claim C4: for every chewiness c and firmness f in [1,10]x[1,10], both
table lookups succeed and compose_ctrl_line returns exactly the line made
of the table entry (up, hold, down) concatenated with (d5, d6) — the
regression over all 100 combinations. -/
theorem compose_ctrl_line_table (c f : Int) (hc1 : 1 ≤ c) (hc2 : c ≤ 10)
    (hf1 : 1 ≤ f) (hf2 : f ≤ 10) :
    ∃ up hold down d5 d6,
      CHEWINESS_TO_SEQ c = some (up, hold, down) ∧
      FIRMNESS_TO_DUTY f = some (d5, d6) ∧
      compose_ctrl_line c f = some (ctrl_string up hold down d5 d6) := by
  interval_cases c <;> interval_cases f <;> exact ⟨_, _, _, _, _, rfl, rfl, rfl⟩

/-- Claim C4 witness: chewiness 3 and firmness 5 produce the docstring
example line "50,100,33,55,50". -/
theorem compose_ctrl_line_table_witness :
    (∃ up hold down d5 d6,
      CHEWINESS_TO_SEQ 3 = some (up, hold, down) ∧
      FIRMNESS_TO_DUTY 5 = some (d5, d6) ∧
      compose_ctrl_line 3 5 = some (ctrl_string up hold down d5 d6)) ∧
    compose_ctrl_line 3 5 = some "50,100,33,55,50" :=
  ⟨compose_ctrl_line_table 3 5 (by decide) (by decide) (by decide) (by decide),
    by decide⟩

/-- Claim C5: clamp10 returns x for integer x in [1,10], 1 for x < 1,
10 for x > 10, and the default 5 on any input whose int() conversion
fails. -/
theorem clamp10_spec (n : Int) (x : PyVal) (hx : pyToInt x = none) :
    (1 ≤ n → n ≤ 10 → clamp10 (.int n) = n) ∧
    (n < 1 → clamp10 (.int n) = 1) ∧
    (10 < n → clamp10 (.int n) = 10) ∧
    clamp10 x = 5 := by
  refine ⟨?_, ?_, ?_, ?_⟩
  · intro h1 h2; simp only [clamp10, pyToInt]; split_ifs <;> omega
  · intro h1; simp only [clamp10, pyToInt]; split_ifs <;> omega
  · intro h1; simp only [clamp10, pyToInt]; split_ifs <;> omega
  · simp only [clamp10, hx]

/-- Claim C5 witness: 7 passes through, -3 clamps to 1, 22 clamps to 10,
and the non-numeric string "abc" yields the default 5. -/
theorem clamp10_spec_witness :
    clamp10 (.int 7) = 7 ∧ clamp10 (.int (-3)) = 1 ∧ clamp10 (.int 22) = 10 ∧
    clamp10 (.str "abc") = 5 := by
  have h7 := clamp10_spec 7 (.str "abc") (by decide)
  have hm := clamp10_spec (-3) (.str "abc") (by decide)
  have hg := clamp10_spec 22 (.str "abc") (by decide)
  exact ⟨h7.1 (by decide) (by decide), hm.2.1 (by decide), hg.2.2.1 (by decide),
    h7.2.2.2⟩

/-- Claim C6: the interval history is a bounded FIFO of capacity 3:
appending 0.5 to [0.4, 0.6] yields [0.4, 0.6, 0.5] whose mean is 0.5
(and whose derived duration is 0.5); appending a fourth value evicts
exactly the oldest entry; the history never exceeds 3 entries. -/
theorem interval_history_fifo :
    deque_append 3 [2/5, 3/5] (1/2) = [2/5, 3/5, 1/2] ∧
    ([2/5, 3/5, 1/2] : List ℚ).sum / 3 = 1/2 ∧
    derive_avg_sec [2/5, 3/5, 1/2] = 1/2 ∧
    (∀ a b c d : ℚ, deque_append 3 [a, b, c] d = [b, c, d]) ∧
    (∀ (xs : List ℚ) (x : ℚ), (deque_append 3 xs x).length ≤ 3) := by
  refine ⟨by norm_num [deque_append], by norm_num,
    by norm_num [derive_avg_sec, MIN_SEC, MAX_SEC], ?_, ?_⟩
  · intro a b c d; simp [deque_append]
  · intro xs x
    simp only [deque_append]
    split_ifs with h
    · exact h
    · simp; omega

/-- Claim C6 witness: the FIFO eviction of the theorem at a fourth value
0.7 after [0.4, 0.6, 0.5]. -/
theorem interval_history_fifo_witness :
    deque_append 3 [2/5, 3/5, 1/2] (7/10) = [3/5, 1/2, 7/10] :=
  interval_history_fifo.2.2.2.1 (2/5) (3/5) (1/2) (7/10)

/-- Claim C7: the mailbox holds at most one pending line (its state is an
optional line); set_ctrl_line overwrites any unconsumed previous line
with the new one (last-write-wins, no queueing); pop_ctrl_line returns
the pending line and resets the field to None; consequently over any
access trace the number of lines delivered to the serial transport plus
the line still pending never exceeds the number of sets plus the
initially pending line — every stored line is delivered at most once. -/
theorem ctrl_line_at_most_once (p : Option String) (l : String) (acts : List CtrlAct) :
    set_ctrl_line p l = some l ∧
    pop_ctrl_line p = (p, none) ∧
    (ctrl_run p acts).2.length + pendingCount (ctrl_run p acts).1
      ≤ setCount acts + pendingCount p := by
  refine ⟨rfl, rfl, ?_⟩
  induction acts generalizing p with
  | nil => simp [ctrl_run]
  | cons a rest ih =>
    cases a with
    | set s =>
      have h := ih (some s)
      simp only [ctrl_run, ctrl_step, set_ctrl_line, setCount, pendingCount,
        Option.toList, List.nil_append, List.length_nil] at h ⊢
      omega
    | pop =>
      have h := ih none
      cases p <;>
        simp only [ctrl_run, ctrl_step, pop_ctrl_line, setCount, pendingCount,
          Option.toList, List.nil_append, List.cons_append, List.length_cons,
          List.length_append, List.length_nil] at h ⊢ <;>
        omega

/-- Claim C7 witness: trace set "a"; set "b"; pop; pop delivers only "b"
(the overwritten "a" is never delivered, the second pop gets nothing). -/
theorem ctrl_line_at_most_once_witness :
    (ctrl_run none [CtrlAct.set "a", CtrlAct.set "b", CtrlAct.pop, CtrlAct.pop]).2.length
        + pendingCount
            (ctrl_run none [CtrlAct.set "a", CtrlAct.set "b", CtrlAct.pop, CtrlAct.pop]).1
      ≤ setCount [CtrlAct.set "a", CtrlAct.set "b", CtrlAct.pop, CtrlAct.pop]
        + pendingCount none ∧
    (ctrl_run none [CtrlAct.set "a", CtrlAct.set "b", CtrlAct.pop, CtrlAct.pop]).2
      = ["b"] :=
  ⟨(ctrl_line_at_most_once none "x"
      [CtrlAct.set "a", CtrlAct.set "b", CtrlAct.pop, CtrlAct.pop]).2.2, by decide⟩

/-- Claim C8: both lookup tables are monotone over 1..10: every component
of CHEWINESS_TO_SEQ and of FIRMNESS_TO_DUTY is monotonically
non-decreasing in the index (equivalently, decreasing as the index
decreases). -/
theorem tables_monotone (i j : Int) (h1 : 1 ≤ i) (hij : i ≤ j) (hj : j ≤ 10) :
    (chew_seq i).1 ≤ (chew_seq j).1 ∧
    (chew_seq i).2.1 ≤ (chew_seq j).2.1 ∧
    (chew_seq i).2.2 ≤ (chew_seq j).2.2 ∧
    (firm_duty i).1 ≤ (firm_duty j).1 ∧
    (firm_duty i).2 ≤ (firm_duty j).2 := by
  have h2 : i ≤ 10 := le_trans hij hj
  have h3 : 1 ≤ j := le_trans h1 hij
  interval_cases i <;> interval_cases j <;> decide

/-- Claim C8 witness: the extreme indices 1 and 10. -/
theorem tables_monotone_witness :
    (chew_seq 1).1 ≤ (chew_seq 10).1 ∧
    (chew_seq 1).2.1 ≤ (chew_seq 10).2.1 ∧
    (chew_seq 1).2.2 ≤ (chew_seq 10).2.2 ∧
    (firm_duty 1).1 ≤ (firm_duty 10).1 ∧
    (firm_duty 1).2 ≤ (firm_duty 10).2 :=
  tables_monotone 1 10 (by decide) (by decide) (by decide)

/-- Claim C9: the looped extraction terminates exactly when progress is
possible: on an asset with at least one frame the read loop returns after
finitely many reads (fuel 2N+2 suffices for any requested count N), while
on an empty asset with a positive requested count the rewind-and-retry
loop exhausts any amount of fuel, i.e. never terminates. -/
theorem read_loop_termination (asset : List Int) (pos N fuel : Nat) :
    (asset ≠ [] → pos ≤ asset.length → 2 * N + 2 ≤ fuel →
      ∃ out, read_exact_loop asset fuel N pos = some out) ∧
    (0 < N → read_exact_loop [] fuel N pos = none) := by
  constructor
  · intro hne hpos hfuel
    exact read_exact_loop_total asset fuel N pos hne hpos (Or.inr hfuel)
  · intro hN
    exact read_exact_loop_empty N pos hN fuel

/-- Claim C9 witness: a 2-frame asset serves a request of 5 frames (more
than its length) with fuel 12, while the empty asset returns none for a
3-frame request at fuel 7. -/
theorem read_loop_termination_witness :
    (∃ out, read_exact_loop [1, 2] 12 5 1 = some out) ∧
    read_exact_loop [] 7 3 0 = none :=
  ⟨(read_loop_termination [1, 2] 1 5 12).1 (by decide) (by decide) (by decide),
    (read_loop_termination [] 0 3 7).2 (by decide)⟩

/-- Claim C10: clamp10 treats as non-numeric exactly the inputs rejected
by int() conversion: the string "7.5" fails conversion and yields the
default 5, while the float 7.5 truncates toward zero to 7 and is then
clamped; in general the default branch is taken exactly on conversion
failure, floats behave as their truncation, and successful conversions
are clamped into [1, 10]. -/
theorem clamp10_int_conversion :
    clamp10 (.str "7.5") = 5 ∧
    clamp10 (.float (15/2)) = 7 ∧
    pyToInt (.str "7.5") = none ∧
    pyToInt (.float (15/2)) = some 7 ∧
    (∀ q : ℚ, clamp10 (.float q) = clamp10 (.int (truncQ q))) ∧
    (∀ x : PyVal, pyToInt x = none → clamp10 x = 5) ∧
    (∀ x : PyVal, ∀ n : Int, pyToInt x = some n →
      clamp10 x = if n < 1 then 1 else if n > 10 then 10 else n) := by
  refine ⟨by decide, by norm_num [clamp10, pyToInt, truncQ],
    by decide, by norm_num [pyToInt, truncQ], ?_, ?_, ?_⟩
  · intro q; simp [clamp10, pyToInt]
  · intro x hx; simp only [clamp10, hx]
  · intro x n hx; simp only [clamp10, hx]

/-- Claim C10 witness: the two concrete conversion facts of the theorem. -/
theorem clamp10_int_conversion_witness :
    clamp10 (.str "7.5") = 5 ∧ clamp10 (.float (15/2)) = 7 :=
  ⟨clamp10_int_conversion.1, clamp10_int_conversion.2.1⟩
